import Mathlib

/-!
Verification of the Azure Code terminal chat client core:
the context-window manager (`src/lib/models/context-manager.ts`),
the client router (`src/lib/ai-clients/manager.ts`),
the Anthropic stream adapter (`src/lib/ai-clients/anthropic.ts`),
and the stream-consumer loop of the app driver (`components/App.tsx`).

The TypeScript code is translated into executable Lean definitions;
wall-clock reads (`Date.now()`) become an explicit `now : Nat` argument,
and `process.env` becomes an explicit `env : String → Option String`.
-/

namespace AzureCode

/-- Message roles, from `types/index.ts` (`MessageRole`). -/
inductive MessageRole where
  | user
  | assistant
  | system
deriving DecidableEq, Repr

/-- Chat message, from `types/index.ts` (`Message`).  The `metadata` record is
only ever given a `type` field by this code base, embedded as `metadataType`. -/
structure Message where
  id : String
  role : MessageRole
  content : String
  timestamp : Nat
  modelId : Option String := none
  tokenCount : Option Nat := none
  metadataType : Option String := none
deriving DecidableEq, Repr

/-- File content record, from `types/index.ts` (`FileContent`). -/
structure FileContent where
  path : String
  content : String
  language : Option String := none
  size : Nat := 0
  truncated : Bool := false
deriving DecidableEq, Repr

/-- Context budget configuration, from `types/index.ts` (`ContextConfig`). -/
structure ContextConfig where
  maxTokens : Nat
  slidingWindowSize : Nat
  systemPromptTokens : Nat
  fileContentTokens : Nat
deriving DecidableEq, Repr

/-- `DEFAULT_CONTEXT_CONFIG` from `context-manager.ts`. -/
def DEFAULT_CONTEXT_CONFIG : ContextConfig :=
  { maxTokens := 128000
    slidingWindowSize := 4000
    systemPromptTokens := 1000
    fileContentTokens := 10000 }

/-- The `m.role !== 'system'` test used by `prepareContext` (both as a loop
guard, negated, and as the `findIndex` predicate of the backfill phase). -/
def nonSystem (m : Message) : Bool :=
  m.role ≠ MessageRole.system

/-- `ContextManager.estimateTokens`: `Math.ceil(text.length / 4)`. -/
def estimateTokens (text : String) : Nat :=
  (text.length + 3) / 4

/-- The per-message token cost used throughout `context-manager.ts`:
`msg.tokenCount || estimateTokens(msg.content)`.  JavaScript `||` falls
through on `0` as well as on `undefined`, which this mirrors. -/
def msgTokens (m : Message) : Nat :=
  match m.tokenCount with
  | some t => if t = 0 then estimateTokens m.content else t
  | none => estimateTokens m.content

/-- `ContextManager.calculateTotalTokens`: reduce over
`total + (msg.tokenCount || estimateTokens(msg.content))`. -/
def calculateTotalTokens (messages : List Message) : Nat :=
  messages.foldl (fun total m => total + msgTokens m) 0

/-- `ContextManager.exceedsContextWindow`. -/
def exceedsContextWindow (cfg : ContextConfig) (messages : List Message) : Bool :=
  calculateTotalTokens messages > cfg.maxTokens

/-- JavaScript `Array.prototype.join(sep)` as used in
`createFileContextMessage`. -/
def joinSep (sep : String) : List String → String
  | [] => ""
  | [a] => a
  | a :: b :: rest => a ++ sep ++ joinSep sep (b :: rest)

/-- The per-file block built inside `createFileContextMessage`:
`File: ${path}` then a fenced code block tagged with the language,
with a truncation marker when `truncated` is set. -/
def fileBlock (f : FileContent) : String :=
  let languageTag := match f.language with
    | some l => "```" ++ l
    | none => "```"
  let truncatedIndicator := if f.truncated then "\n... (truncated)" else ""
  "File: " ++ f.path ++ "\n" ++ languageTag ++ "\n" ++ f.content ++ truncatedIndicator ++ "\n```"

/-- `ContextManager.createFileContextMessage`.  Note that the recorded
`tokenCount` estimates the joined file blocks only, while the message
`content` carries the `Here are the relevant files:` preamble as well,
exactly as in the source. -/
def createFileContextMessage (fileContents : List FileContent) (now : Nat) : Message :=
  let content := joinSep "\n\n" (fileContents.map fileBlock)
  { id := "file-context-" ++ toString now
    role := MessageRole.user
    content := "Here are the relevant files:\n\n" ++ content
    timestamp := now
    tokenCount := some (estimateTokens content)
    metadataType := some "file-context" }

/-- The synthetic system message pushed first by `prepareContext`. -/
def mkSystemMessage (systemPrompt : String) (now : Nat) : Message :=
  { id := "system"
    role := MessageRole.system
    content := systemPrompt
    timestamp := now
    tokenCount := some (estimateTokens systemPrompt) }

/-- `availableBudget` as computed in `prepareContext`:
`maxTokens - systemPromptTokens - (fileContents ? fileContentTokens : 0) - 1000`.
A present-but-empty `fileContents` array is truthy in JavaScript, hence the
`isSome` test. -/
def availableBudget (cfg : ContextConfig) (hasFiles : Bool) : Int :=
  (cfg.maxTokens : Int) - (cfg.systemPromptTokens : Int) -
    (if hasFiles then (cfg.fileContentTokens : Int) else 0) - 1000

/-- Phase 1 of `prepareContext`: the sliding-window loop over the reversed
history.  `included` plays `includedMessages` (built by `unshift`, hence the
prepend), `wt` plays `slidingWindowTokens`; the loop `break`s the first time
a message would push the window past `slidingWindowSize`. -/
def windowLoop (cfg : ContextConfig) : List Message → List Message → Nat → List Message × Nat
  | [], included, wt => (included, wt)
  | msg :: rest, included, wt =>
    if msg.role = MessageRole.system then
      windowLoop cfg rest included wt
    else
      let t := msgTokens msg
      if wt + t ≤ cfg.slidingWindowSize then
        windowLoop cfg rest (msg :: included) (wt + t)
      else
        (included, wt)

/-- Phase 2 of `prepareContext`: the backfill loop.  Each admitted older
message is spliced into `result` at the first index whose role is not
`system` (JavaScript `findIndex`, `-1` meaning push at the end), and the
loop `break`s the first time a message would push `totalTokens` past
`availableBudget`. -/
def backfillLoop (cfg : ContextConfig) (budget : Int) :
    List Message → List Message → Nat → List Message × Nat
  | [], result, total => (result, total)
  | msg :: rest, result, total =>
    if msg.role = MessageRole.system then
      backfillLoop cfg budget rest result total
    else
      let t := msgTokens msg
      if (total + t : Int) ≤ budget then
        let result' :=
          match result.findIdx? nonSystem with
          | some i => result.take i ++ msg :: result.drop i
          | none => result ++ [msg]
        backfillLoop cfg budget rest result' (total + t)
      else
        (result, total)

/-- `ContextManager.prepareContext`.  `now` stands for the `Date.now()`
reads performed while building the synthetic messages. -/
def prepareContext (cfg : ContextConfig) (systemPrompt : String)
    (messages : List Message) (fileContents : Option (List FileContent)) (now : Nat) :
    List Message :=
  let systemMessage := mkSystemMessage systemPrompt now
  let totalTokens0 := systemMessage.tokenCount.getD 0
  let budget := availableBudget cfg fileContents.isSome
  let rt : List Message × Nat :=
    match fileContents with
    | some fcs =>
      if fcs.length > 0 then
        let fm := createFileContextMessage fcs now
        ([systemMessage, fm], totalTokens0 + fm.tokenCount.getD 0)
      else
        ([systemMessage], totalTokens0)
    | none => ([systemMessage], totalTokens0)
  let result1 := rt.1
  let totalTokens1 := rt.2
  let reversedMessages := messages.reverse
  let w := windowLoop cfg reversedMessages [] 0
  let includedMessages := w.1
  let slidingWindowTokens := w.2
  let result2 := result1 ++ includedMessages
  let totalTokens2 := totalTokens1 + slidingWindowTokens
  let remainingBudget := budget - (totalTokens2 : Int)
  if remainingBudget > 0 then
    let olderMessages := reversedMessages.drop includedMessages.length
    (backfillLoop cfg budget olderMessages.reverse result2 totalTokens2).1
  else
    result2

/-! ### Derived views of `prepareContext`

The following definitions name the intermediate quantities of
`prepareContext` so that theorems can speak about its phases.  They are
extracted verbatim from the function above. -/

/-- Total token cost of a message list by the per-message cost used in the
loops of `prepareContext`. -/
def sumTokens (l : List Message) : Nat :=
  (l.map msgTokens).sum

/-- The sliding-window block of `prepareContext` (phase 1), restored to
chronological order, exactly as `includedMessages` ends up. -/
def slidingWindow (cfg : ContextConfig) (messages : List Message) : List Message :=
  (windowLoop cfg messages.reverse [] 0).1

/-- The `slidingWindowTokens` accumulator at the end of phase 1. -/
def slidingWindowTok (cfg : ContextConfig) (messages : List Message) : Nat :=
  (windowLoop cfg messages.reverse [] 0).2

/-- The optional consolidated file-context message, as a zero- or
one-element list (`fileContents && fileContents.length > 0`). -/
def fileContextList (fileContents : Option (List FileContent)) (now : Nat) : List Message :=
  match fileContents with
  | some fcs => if fcs.length > 0 then [createFileContextMessage fcs now] else []
  | none => []

/-- The recorded token count of the file-context message (0 when absent). -/
def fileTok (fileContents : Option (List FileContent)) : Nat :=
  match fileContents with
  | some fcs =>
    if fcs.length > 0 then estimateTokens (joinSep "\n\n" (fcs.map fileBlock)) else 0
  | none => 0

/-- `totalTokens` after the system message and the file-context message. -/
def baseTokens (systemPrompt : String) (fileContents : Option (List FileContent)) : Nat :=
  estimateTokens systemPrompt + fileTok fileContents

/-- `totalTokens` after phase 1. -/
def totalAfterWindow (cfg : ContextConfig) (systemPrompt : String)
    (messages : List Message) (fileContents : Option (List FileContent)) : Nat :=
  baseTokens systemPrompt fileContents + slidingWindowTok cfg messages

/-- The `olderMessages` slice handed to phase 2, in the chronological order
in which the loop walks it (`reversedMessages.slice(n).reverse()`). -/
def olderList (cfg : ContextConfig) (messages : List Message) : List Message :=
  (messages.reverse.drop (slidingWindow cfg messages).length).reverse

/-- The messages phase 2 admits, in the order the loop walks them
(chronological), together with the final `totalTokens`. -/
def backfillAdmitted (cfg : ContextConfig) (budget : Int) :
    List Message → Nat → List Message × Nat
  | [], total => ([], total)
  | msg :: rest, total =>
    if msg.role = MessageRole.system then
      backfillAdmitted cfg budget rest total
    else
      let t := msgTokens msg
      if (total + t : Int) ≤ budget then
        let p := backfillAdmitted cfg budget rest (total + t)
        (msg :: p.1, p.2)
      else
        ([], total)

/-- The backfill block: what phase 2 admits when it runs at all. -/
def backfillBlock (cfg : ContextConfig) (systemPrompt : String)
    (messages : List Message) (fileContents : Option (List FileContent)) : List Message :=
  let budget := availableBudget cfg fileContents.isSome
  let total := totalAfterWindow cfg systemPrompt messages fileContents
  if budget - (total : Int) > 0 then
    (backfillAdmitted cfg budget (olderList cfg messages) total).1
  else
    []

/-! ### The sliding-window phase -/

/-- Greedy specification of phase 1 on the already-filtered,
newest-first list. -/
def greedyWindow (cfg : ContextConfig) (wt : Nat) : List Message → List Message
  | [] => []
  | m :: rest =>
    if wt + msgTokens m ≤ cfg.slidingWindowSize then
      m :: greedyWindow cfg (wt + msgTokens m) rest
    else
      []

lemma sumTokens_nil : sumTokens [] = 0 := rfl

lemma sumTokens_cons (m : Message) (l : List Message) :
    sumTokens (m :: l) = msgTokens m + sumTokens l := by
  simp [sumTokens]

lemma sumTokens_append (l₁ l₂ : List Message) :
    sumTokens (l₁ ++ l₂) = sumTokens l₁ + sumTokens l₂ := by
  simp [sumTokens]

lemma sumTokens_reverse (l : List Message) :
    sumTokens l.reverse = sumTokens l := by
  simp [sumTokens, List.sum_reverse]

/-- Phase 1 computes exactly the greedy selection over the non-system
messages, reversed onto the accumulator. -/
lemma windowLoop_eq (cfg : ContextConfig) :
    ∀ (l included : List Message) (wt : Nat),
      windowLoop cfg l included wt =
        ((greedyWindow cfg wt (l.filter nonSystem)).reverse ++ included,
          wt + sumTokens (greedyWindow cfg wt (l.filter nonSystem))) := by
  intro l
  induction l with
  | nil => intro included wt; simp [windowLoop, greedyWindow, sumTokens]
  | cons msg rest ih =>
    intro included wt
    by_cases hsys : msg.role = MessageRole.system
    · have hns : nonSystem msg = false := by simp [nonSystem, hsys]
      simp [windowLoop, hsys, List.filter_cons, hns, ih]
    · have hns : nonSystem msg = true := by simp [nonSystem, hsys]
      by_cases hfit : wt + msgTokens msg ≤ cfg.slidingWindowSize
      · simp only [windowLoop, if_neg hsys, if_pos hfit, ih, List.filter_cons, hns,
          if_pos trivial, greedyWindow]
        rw [Prod.mk.injEq]
        refine ⟨by simp, by rw [sumTokens_cons]; omega⟩
      · simp only [windowLoop, if_neg hsys, if_pos trivial, List.filter_cons, hns, greedyWindow]
        rw [if_neg hfit, if_neg hfit]
        simp [sumTokens]

/-- The greedy window never exceeds the sliding-window allowance. -/
lemma greedyWindow_sum_le (cfg : ContextConfig) :
    ∀ (R : List Message) (wt : Nat), wt ≤ cfg.slidingWindowSize →
      wt + sumTokens (greedyWindow cfg wt R) ≤ cfg.slidingWindowSize := by
  intro R
  induction R with
  | nil => intro wt h; simpa [greedyWindow, sumTokens] using h
  | cons m rest ih =>
    intro wt h
    by_cases hfit : wt + msgTokens m ≤ cfg.slidingWindowSize
    · have := ih (wt + msgTokens m) hfit
      simp only [greedyWindow, if_pos hfit, sumTokens_cons]
      omega
    · simp only [greedyWindow, if_neg hfit, sumTokens_nil]
      omega

/-- The greedy window is either the whole list, or stops exactly at the
first message that would exceed the allowance. -/
lemma greedyWindow_cases (cfg : ContextConfig) :
    ∀ (R : List Message) (wt : Nat),
      greedyWindow cfg wt R = R ∨
      ∃ m rest, R = greedyWindow cfg wt R ++ m :: rest ∧
        cfg.slidingWindowSize < wt + sumTokens (greedyWindow cfg wt R) + msgTokens m := by
  intro R
  induction R with
  | nil => intro wt; exact Or.inl rfl
  | cons m rest ih =>
    intro wt
    by_cases hfit : wt + msgTokens m ≤ cfg.slidingWindowSize
    · rcases ih (wt + msgTokens m) with h | ⟨m', rest', hdec, hgt⟩
      · left; simp [greedyWindow, if_pos hfit, h]
      · right
        refine ⟨m', rest', ?_, ?_⟩
        · simp only [greedyWindow, if_pos hfit]
          rw [List.cons_append]
          exact congrArg (m :: ·) hdec
        · simp only [greedyWindow, if_pos hfit, sumTokens_cons]
          omega
    · right
      refine ⟨m, rest, ?_, ?_⟩
      · simp [greedyWindow, if_neg hfit]
      · simp only [greedyWindow, if_neg hfit, sumTokens_nil]
        omega

/-- Every message the greedy window selects comes from its input. -/
lemma greedyWindow_subset (cfg : ContextConfig) :
    ∀ (R : List Message) (wt : Nat) (m : Message),
      m ∈ greedyWindow cfg wt R → m ∈ R := by
  intro R
  induction R with
  | nil => intro wt m h; simp [greedyWindow] at h
  | cons a rest ih =>
    intro wt m h
    by_cases hfit : wt + msgTokens a ≤ cfg.slidingWindowSize
    · simp only [greedyWindow, if_pos hfit, List.mem_cons] at h
      rcases h with h | h
      · simp [h]
      · exact List.mem_cons_of_mem a (ih _ m h)
    · simp [greedyWindow, if_neg hfit] at h

/-- The sliding window in terms of the greedy selection. -/
lemma slidingWindow_eq (cfg : ContextConfig) (messages : List Message) :
    slidingWindow cfg messages =
      (greedyWindow cfg 0 ((messages.filter nonSystem).reverse)).reverse := by
  rw [slidingWindow, windowLoop_eq, List.filter_reverse]
  simp

lemma slidingWindowTok_eq (cfg : ContextConfig) (messages : List Message) :
    slidingWindowTok cfg messages = sumTokens (slidingWindow cfg messages) := by
  rw [slidingWindowTok, windowLoop_eq, slidingWindow_eq, List.filter_reverse, sumTokens_reverse]
  simp

/-- Every message of the sliding window has a non-system role. -/
lemma slidingWindow_nonSystem (cfg : ContextConfig) (messages : List Message) :
    ∀ m ∈ slidingWindow cfg messages, m.role ≠ MessageRole.system := by
  intro m hm
  rw [slidingWindow_eq] at hm
  rw [List.mem_reverse] at hm
  have := greedyWindow_subset cfg _ _ _ hm
  rw [List.mem_reverse, List.mem_filter] at this
  simpa [nonSystem] using this.2

/-! ### The backfill phase -/

/-- The splice step of phase 2: with a system message in front and only
non-system messages behind it, `findIndex` + `splice` amounts to inserting
right after the system message. -/
lemma insertAfterSystem (sys msg : Message) (rest : List Message)
    (hsys : sys.role = MessageRole.system)
    (hrest : ∀ m ∈ rest, m.role ≠ MessageRole.system) :
    (match (sys :: rest).findIdx? nonSystem with
      | some i => (sys :: rest).take i ++ msg :: (sys :: rest).drop i
      | none => (sys :: rest) ++ [msg]) = sys :: msg :: rest := by
  have hs : nonSystem sys = false := by simp [nonSystem, hsys]
  cases rest with
  | nil => simp [List.findIdx?_cons, hs]
  | cons r t =>
    have hr : nonSystem r = true := by
      have := hrest r (by simp)
      simp [nonSystem, this]
    simp [List.findIdx?_cons, hs, hr]

/-- Phase 2 equals prepending the reversed admitted list to the non-system
block sitting behind the system message. -/
lemma backfillLoop_eq (cfg : ContextConfig) (budget : Int) :
    ∀ (older rest : List Message) (sys : Message) (total : Nat),
      sys.role = MessageRole.system →
      (∀ m ∈ rest, m.role ≠ MessageRole.system) →
      backfillLoop cfg budget older (sys :: rest) total =
        (sys :: ((backfillAdmitted cfg budget older total).1.reverse ++ rest),
          (backfillAdmitted cfg budget older total).2) := by
  intro older
  induction older with
  | nil =>
    intro rest sys total hsys hrest
    simp [backfillLoop, backfillAdmitted]
  | cons msg older' ih =>
    intro rest sys total hsys hrest
    by_cases hm : msg.role = MessageRole.system
    · simp only [backfillLoop, if_pos hm, backfillAdmitted]
      exact ih rest sys total hsys hrest
    · by_cases hfit : (total : Int) + (msgTokens msg : Int) ≤ budget
      · have hrest' : ∀ m ∈ msg :: rest, m.role ≠ MessageRole.system := by
          intro m hmem
          rcases List.mem_cons.mp hmem with h | h
          · simpa [h] using hm
          · exact hrest m h
        simp only [backfillLoop, if_neg hm, if_pos hfit,
          insertAfterSystem sys msg rest hsys hrest,
          backfillAdmitted]
        rw [ih (msg :: rest) sys (total + msgTokens msg) hsys hrest']
        rw [Prod.mk.injEq]
        refine ⟨?_, rfl⟩
        simp
      · simp only [backfillLoop, if_neg hm, if_neg hfit, backfillAdmitted]
        simp

/-- The final `totalTokens` of phase 2 is the starting total plus the cost
of everything admitted. -/
lemma backfillAdmitted_snd (cfg : ContextConfig) (budget : Int) :
    ∀ (l : List Message) (total : Nat),
      (backfillAdmitted cfg budget l total).2 =
        total + sumTokens (backfillAdmitted cfg budget l total).1 := by
  intro l
  induction l with
  | nil => intro total; simp [backfillAdmitted, sumTokens]
  | cons msg rest ih =>
    intro total
    by_cases hm : msg.role = MessageRole.system
    · simpa [backfillAdmitted, hm] using ih total
    · by_cases hfit : (total : Int) + (msgTokens msg : Int) ≤ budget
      · simp only [backfillAdmitted, if_neg hm, if_pos hfit, sumTokens_cons]
        rw [ih (total + msgTokens msg)]
        omega
      · simp [backfillAdmitted, hm, hfit, sumTokens]

/-- Phase 2 never pushes `totalTokens` past the budget it starts under. -/
lemma backfillAdmitted_le (cfg : ContextConfig) (budget : Int) :
    ∀ (l : List Message) (total : Nat), (total : Int) ≤ budget →
      ((backfillAdmitted cfg budget l total).2 : Int) ≤ budget := by
  intro l
  induction l with
  | nil => intro total h; simpa [backfillAdmitted] using h
  | cons msg rest ih =>
    intro total h
    by_cases hm : msg.role = MessageRole.system
    · simpa [backfillAdmitted, hm] using ih total h
    · by_cases hfit : (total : Int) + (msgTokens msg : Int) ≤ budget
      · simp only [backfillAdmitted, if_neg hm, if_pos hfit]
        exact ih (total + msgTokens msg) (by push_cast; omega)
      · simpa [backfillAdmitted, hm, hfit] using h

/-- What phase 2 admits is a subsequence of the non-system part of the
older messages, in their given (chronological) order. -/
lemma backfillAdmitted_sublist (cfg : ContextConfig) (budget : Int) :
    ∀ (l : List Message) (total : Nat),
      List.Sublist (backfillAdmitted cfg budget l total).1 (l.filter nonSystem) := by
  intro l
  induction l with
  | nil => intro total; simp [backfillAdmitted]
  | cons msg rest ih =>
    intro total
    by_cases hm : msg.role = MessageRole.system
    · have hns : nonSystem msg = false := by simp [nonSystem, hm]
      simpa [backfillAdmitted, hm, List.filter_cons, hns] using ih total
    · have hns : nonSystem msg = true := by simp [nonSystem, hm]
      by_cases hfit : (total : Int) + (msgTokens msg : Int) ≤ budget
      · simp only [backfillAdmitted, if_neg hm, if_pos hfit, List.filter_cons, hns, if_pos trivial]
        exact (ih (total + msgTokens msg)).cons₂ msg
      · simp [backfillAdmitted, hm, hfit]

/-- Everything phase 2 admits has a non-system role. -/
lemma backfillAdmitted_nonSystem (cfg : ContextConfig) (budget : Int)
    (l : List Message) (total : Nat) :
    ∀ m ∈ (backfillAdmitted cfg budget l total).1, m.role ≠ MessageRole.system := by
  intro m hm
  have := (backfillAdmitted_sublist cfg budget l total).subset hm
  rw [List.mem_filter] at this
  simpa [nonSystem] using this.2

/-! ### Token accounting -/

lemma calculateTotalTokens_eq_sumTokens (l : List Message) :
    calculateTotalTokens l = sumTokens l := by
  simp [calculateTotalTokens, sumTokens, List.sum_eq_foldl, List.foldl_map]

lemma msgTokens_mkSystemMessage (s : String) (now : Nat) :
    msgTokens (mkSystemMessage s now) = estimateTokens s := by
  by_cases h : estimateTokens s = 0 <;> simp [msgTokens, mkSystemMessage, h]

lemma fileBlock_length_pos (f : FileContent) : 0 < (fileBlock f).length := by
  have h6 : ("File: " : String).length = 6 := rfl
  rcases f with ⟨path, content, lang, size, trunc⟩
  cases lang <;> cases trunc <;>
    simp [fileBlock, String.length_append, h6]

lemma joinSep_length_pos (blocks : List String) (hne : blocks ≠ [])
    (hall : ∀ b ∈ blocks, 0 < b.length) :
    0 < (joinSep "\n\n" blocks).length := by
  match blocks with
  | [a] => simpa [joinSep] using hall a (by simp)
  | a :: b :: rest =>
    have ha := hall a (by simp)
    simp [joinSep, String.length_append]
    omega

lemma estimateTokens_pos (s : String) (h : 0 < s.length) : 0 < estimateTokens s := by
  unfold estimateTokens
  omega

/-- The file-context message always carries a nonzero recorded token count,
so its `tokenCount || estimate` cost is that recorded count. -/
lemma msgTokens_createFileContextMessage (fcs : List FileContent) (now : Nat)
    (hne : fcs ≠ []) :
    msgTokens (createFileContextMessage fcs now) =
      estimateTokens (joinSep "\n\n" (fcs.map fileBlock)) := by
  have hpos : 0 < estimateTokens (joinSep "\n\n" (fcs.map fileBlock)) := by
    apply estimateTokens_pos
    apply joinSep_length_pos
    · simpa using hne
    · intro b hb
      rw [List.mem_map] at hb
      obtain ⟨f, _, rfl⟩ := hb
      exact fileBlock_length_pos f
  have h0 : estimateTokens (joinSep "\n\n" (fcs.map fileBlock)) ≠ 0 := by omega
  simp [msgTokens, createFileContextMessage, h0]

lemma sumTokens_fileContextList (f : Option (List FileContent)) (now : Nat) :
    sumTokens (fileContextList f now) = fileTok f := by
  cases f with
  | none => simp [fileContextList, fileTok, sumTokens]
  | some fcs =>
    by_cases h : fcs.length > 0
    · have hne : fcs ≠ [] := by
        intro hc
        subst hc
        simp at h
      simp [fileContextList, fileTok, h, sumTokens_cons, sumTokens_nil,
        msgTokens_createFileContextMessage fcs now hne]
    · simp [fileContextList, fileTok, h, sumTokens]

/-! ### The shape of `prepareContext` -/

lemma slidingWindow_def (cfg : ContextConfig) (H : List Message) :
    (windowLoop cfg H.reverse [] 0).1 = slidingWindow cfg H := rfl

lemma slidingWindowTok_def (cfg : ContextConfig) (H : List Message) :
    (windowLoop cfg H.reverse [] 0).2 = slidingWindowTok cfg H := rfl

lemma olderList_def (cfg : ContextConfig) (H : List Message) :
    (H.reverse.drop (slidingWindow cfg H).length).reverse = olderList cfg H := rfl

lemma mkSystemMessage_tokenCount (s : String) (now : Nat) :
    (mkSystemMessage s now).tokenCount.getD 0 = estimateTokens s := rfl

lemma fileMsg_tokenCount (fcs : List FileContent) (now : Nat) :
    (createFileContextMessage fcs now).tokenCount.getD 0 =
      estimateTokens (joinSep "\n\n" (fcs.map fileBlock)) := rfl

/-- The common final step of `prepareContext`, for any system message,
non-system block and starting total. -/
lemma prepareContext_core (cfg : ContextConfig) (s : String) (H : List Message) (now : Nat)
    (fileMsgs : List Message) (base : Nat) (budget : Int)
    (hfm : ∀ m ∈ fileMsgs, m.role ≠ MessageRole.system) :
    (if budget - ((base + slidingWindowTok cfg H : Nat) : Int) > 0 then
      (backfillLoop cfg budget (olderList cfg H)
        ((mkSystemMessage s now :: fileMsgs) ++ slidingWindow cfg H)
        (base + slidingWindowTok cfg H)).1
     else (mkSystemMessage s now :: fileMsgs) ++ slidingWindow cfg H) =
      mkSystemMessage s now ::
        ((if budget - ((base + slidingWindowTok cfg H : Nat) : Int) > 0 then
            (backfillAdmitted cfg budget (olderList cfg H) (base + slidingWindowTok cfg H)).1
          else []).reverse ++ (fileMsgs ++ slidingWindow cfg H)) := by
  by_cases hb : budget - ((base + slidingWindowTok cfg H : Nat) : Int) > 0
  · rw [if_pos hb, if_pos hb]
    have hrest : ∀ m ∈ fileMsgs ++ slidingWindow cfg H, m.role ≠ MessageRole.system := by
      intro m hm
      rcases List.mem_append.mp hm with h | h
      · exact hfm m h
      · exact slidingWindow_nonSystem cfg H m h
    rw [List.cons_append]
    rw [backfillLoop_eq cfg budget (olderList cfg H) (fileMsgs ++ slidingWindow cfg H)
      (mkSystemMessage s now) (base + slidingWindowTok cfg H) rfl hrest]
  · rw [if_neg hb, if_neg hb]
    simp

/-- `prepareContext` decomposes as: the synthetic system message, then the
reversed backfill block, then the optional file-context message, then the
sliding-window block. -/
theorem prepareContext_structure (cfg : ContextConfig) (s : String)
    (H : List Message) (f : Option (List FileContent)) (now : Nat) :
    prepareContext cfg s H f now =
      mkSystemMessage s now ::
        ((backfillBlock cfg s H f).reverse ++ (fileContextList f now ++ slidingWindow cfg H)) := by
  cases f with
  | none =>
    have hbb : backfillBlock cfg s H none =
        (if availableBudget cfg false -
            ((estimateTokens s + slidingWindowTok cfg H : Nat) : Int) > 0 then
          (backfillAdmitted cfg (availableBudget cfg false) (olderList cfg H)
            (estimateTokens s + slidingWindowTok cfg H)).1
        else []) := by
      simp [backfillBlock, totalAfterWindow, baseTokens, fileTok]
    simp only [prepareContext, mkSystemMessage_tokenCount, slidingWindow_def,
      slidingWindowTok_def, olderList_def, Option.isSome_none, fileContextList, hbb]
    exact prepareContext_core cfg s H now [] (estimateTokens s) (availableBudget cfg false)
      (by simp)
  | some fcs =>
    by_cases hlen : fcs.length > 0
    · have hbb : backfillBlock cfg s H (some fcs) =
          (if availableBudget cfg true -
              ((estimateTokens s + estimateTokens (joinSep "\n\n" (fcs.map fileBlock)) +
                slidingWindowTok cfg H : Nat) : Int) > 0 then
            (backfillAdmitted cfg (availableBudget cfg true) (olderList cfg H)
              (estimateTokens s + estimateTokens (joinSep "\n\n" (fcs.map fileBlock)) +
                slidingWindowTok cfg H)).1
          else []) := by
        simp [backfillBlock, totalAfterWindow, baseTokens, fileTok, hlen]
      have hfm : ∀ m ∈ [createFileContextMessage fcs now], m.role ≠ MessageRole.system := by
        intro m hm
        rw [List.mem_singleton] at hm
        subst hm
        simp [createFileContextMessage]
      simp only [prepareContext, mkSystemMessage_tokenCount, fileMsg_tokenCount,
        slidingWindow_def, slidingWindowTok_def, olderList_def, Option.isSome_some,
        if_pos hlen, fileContextList, hbb]
      exact prepareContext_core cfg s H now [createFileContextMessage fcs now]
        (estimateTokens s + estimateTokens (joinSep "\n\n" (fcs.map fileBlock)))
        (availableBudget cfg true) hfm
    · have hbb : backfillBlock cfg s H (some fcs) =
          (if availableBudget cfg true -
              ((estimateTokens s + slidingWindowTok cfg H : Nat) : Int) > 0 then
            (backfillAdmitted cfg (availableBudget cfg true) (olderList cfg H)
              (estimateTokens s + slidingWindowTok cfg H)).1
          else []) := by
        simp [backfillBlock, totalAfterWindow, baseTokens, fileTok, hlen]
      simp only [prepareContext, mkSystemMessage_tokenCount, slidingWindow_def,
        slidingWindowTok_def, olderList_def, Option.isSome_some, if_neg hlen,
        fileContextList, hbb]
      exact prepareContext_core cfg s H now [] (estimateTokens s) (availableBudget cfg true)
        (by simp)

/-- The sliding-window block costs at most the sliding-window allowance. -/
lemma slidingWindow_sum_le (cfg : ContextConfig) (H : List Message) :
    sumTokens (slidingWindow cfg H) ≤ cfg.slidingWindowSize := by
  rw [slidingWindow_eq, sumTokens_reverse]
  have := greedyWindow_sum_le cfg ((H.filter nonSystem).reverse) 0 (Nat.zero_le _)
  omega

lemma totalAfterWindow_eq (cfg : ContextConfig) (s : String) (H : List Message)
    (f : Option (List FileContent)) :
    totalAfterWindow cfg s H f =
      estimateTokens s + fileTok f + sumTokens (slidingWindow cfg H) := by
  rw [totalAfterWindow, baseTokens, slidingWindowTok_eq]

/-! ### Concrete instances used by the counterexamples -/

/-- A configuration with a tiny sliding window and ample budget. -/
def cfgTiny : ContextConfig :=
  { maxTokens := 100000, slidingWindowSize := 1, systemPromptTokens := 1000,
    fileContentTokens := 10000 }

/-- A configuration whose available budget computes to zero. -/
def cfgSmall : ContextConfig :=
  { maxTokens := 2000, slidingWindowSize := 4000, systemPromptTokens := 1000,
    fileContentTokens := 10000 }

def msgUser1 : Message := { id := "m1", role := MessageRole.user, content := "a", timestamp := 1 }

def msgUser2 : Message := { id := "m2", role := MessageRole.user, content := "b", timestamp := 2 }

def msgUser3 : Message := { id := "m3", role := MessageRole.user, content := "c", timestamp := 3 }

def msgBig : Message :=
  { id := "mA", role := MessageRole.user, content := "hello", timestamp := 5,
    tokenCount := some 5 }

/-- Chronological ordering of a message list by timestamp. -/
def chronological : List Message → Bool
  | [] => true
  | [_] => true
  | a :: b :: rest => decide (a.timestamp ≤ b.timestamp) && chronological (b :: rest)

/-! ### Claims about the Context Window Manager -/

/-- C1 counterexample: with `maxTokens = 2000`, `systemPromptTokens = 1000`
and no file context the available budget is `0`, yet `prepareContext` still
returns a 5-token history message admitted by the sliding-window phase, so
the returned list's estimated total cost exceeds
`maxTokens - systemPromptTokens - responseReserve`. -/
theorem budgetInvariant_counterexample :
    ¬ ((calculateTotalTokens (prepareContext cfgSmall "" [msgBig] none 0) : Int) ≤
        availableBudget cfgSmall false) := by
  decide

/-- C1 (amended): provided the system message's estimated tokens, the
file-context message's recorded tokens and the whole sliding-window
allowance together fit inside
`maxTokens - systemPromptTokens - (fileContentTokens if files) - 1000`,
the list returned by `prepareContext` has estimated total token cost at
most that available budget. -/
theorem budgetInvariant_amended (cfg : ContextConfig) (s : String) (H : List Message)
    (f : Option (List FileContent)) (now : Nat)
    (h : (estimateTokens s : Int) + (fileTok f : Int) + (cfg.slidingWindowSize : Int) ≤
      availableBudget cfg f.isSome) :
    (calculateTotalTokens (prepareContext cfg s H f now) : Int) ≤
      availableBudget cfg f.isSome := by
  rw [calculateTotalTokens_eq_sumTokens, prepareContext_structure, sumTokens_cons,
    sumTokens_append, sumTokens_append, sumTokens_reverse, sumTokens_fileContextList,
    msgTokens_mkSystemMessage]
  have hwin := slidingWindow_sum_le cfg H
  have htot := totalAfterWindow_eq cfg s H f
  by_cases hb : availableBudget cfg f.isSome - ((totalAfterWindow cfg s H f : Nat) : Int) > 0
  · have hbb : backfillBlock cfg s H f =
        (backfillAdmitted cfg (availableBudget cfg f.isSome) (olderList cfg H)
          (totalAfterWindow cfg s H f)).1 := by
      simp only [backfillBlock]
      rw [if_pos hb]
    have h1 : ((totalAfterWindow cfg s H f : Nat) : Int) ≤ availableBudget cfg f.isSome := by
      rw [htot]
      push_cast
      omega
    have h2 := backfillAdmitted_le cfg (availableBudget cfg f.isSome) (olderList cfg H)
      (totalAfterWindow cfg s H f) h1
    have h3 := backfillAdmitted_snd cfg (availableBudget cfg f.isSome) (olderList cfg H)
      (totalAfterWindow cfg s H f)
    rw [hbb]
    push_cast at h2 ⊢
    omega
  · have hbb : backfillBlock cfg s H f = [] := by
      simp only [backfillBlock]
      rw [if_neg hb]
    rw [hbb]
    push_cast
    simp only [sumTokens_nil]
    omega

/-- C1 witness: the default configuration with a short system prompt and a
one-message history satisfies the proviso, so the bound holds there. -/
theorem budgetInvariant_amended_witness :
    ((estimateTokens "hi" : Int) +
        (fileTok (none : Option (List FileContent)) : Int) +
        (DEFAULT_CONTEXT_CONFIG.slidingWindowSize : Int) ≤
      availableBudget DEFAULT_CONTEXT_CONFIG (Option.isSome (none : Option (List FileContent)))) ∧
    (calculateTotalTokens (prepareContext DEFAULT_CONTEXT_CONFIG "hi" [msgBig] none 0) : Int) ≤
      availableBudget DEFAULT_CONTEXT_CONFIG (Option.isSome (none : Option (List FileContent))) :=
  ⟨by decide, budgetInvariant_amended DEFAULT_CONTEXT_CONFIG "hi" [msgBig] none 0 (by decide)⟩

/-- C2 counterexample: with a 1-token sliding window and three 1-token user
messages, two older messages are admitted by backfill and come out as
`[system, m2, m1, m3]` — the kept history messages are not chronologically
ordered. -/
theorem backfillOrder_counterexample :
    chronological
      ((prepareContext cfgTiny "" [msgUser1, msgUser2, msgUser3] none 0).filter nonSystem) =
      false := by
  decide

/-- C2 (amended): the backfill-admitted messages are a subsequence of the
older history in chronological order, but they are prepended REVERSED —
newest first — between the system message and the (chronologically ordered)
sliding-window block, because each admitted message is spliced in at the
first non-system index. -/
theorem backfillOrder_amended (cfg : ContextConfig) (s : String) (H : List Message)
    (f : Option (List FileContent)) (now : Nat) :
    prepareContext cfg s H f now =
      mkSystemMessage s now ::
        ((backfillBlock cfg s H f).reverse ++ (fileContextList f now ++ slidingWindow cfg H)) ∧
    List.Sublist (backfillBlock cfg s H f) ((olderList cfg H).filter nonSystem) := by
  refine ⟨prepareContext_structure cfg s H f now, ?_⟩
  simp only [backfillBlock]
  split
  · exact backfillAdmitted_sublist cfg (availableBudget cfg f.isSome) (olderList cfg H)
      (totalAfterWindow cfg s H f)
  · exact List.nil_sublist _

/-- C4 counterexample: with an available budget of exactly `0`, the
returned list still contains the history message `msgBig`, admitted by the
sliding-window phase, not only the system message. -/
theorem zeroBudget_counterexample :
    availableBudget cfgSmall false ≤ 0 ∧
      msgBig ∈ prepareContext cfgSmall "" [msgBig] none 0 := by
  decide

/-- C4 (amended): when the available budget is zero or negative no backfill
happens, but the sliding-window phase is not budget-gated: the result is
the system message, the optional file-context message, and the
sliding-window block. -/
theorem zeroBudget_amended (cfg : ContextConfig) (s : String) (H : List Message)
    (f : Option (List FileContent)) (now : Nat)
    (h : availableBudget cfg f.isSome ≤ 0) :
    prepareContext cfg s H f now =
      mkSystemMessage s now :: (fileContextList f now ++ slidingWindow cfg H) := by
  rw [prepareContext_structure]
  have hbb : backfillBlock cfg s H f = [] := by
    simp only [backfillBlock]
    rw [if_neg]
    omega
  rw [hbb]
  rfl

/-- C4 witness: `cfgSmall` computes a zero budget, and there the returned
list is the system message followed by the sliding window. -/
theorem zeroBudget_amended_witness :
    availableBudget cfgSmall (Option.isSome (none : Option (List FileContent))) ≤ 0 ∧
      prepareContext cfgSmall "" [msgBig] none 0 =
        mkSystemMessage "" 0 ::
          (fileContextList none 0 ++ slidingWindow cfgSmall [msgBig]) :=
  ⟨by decide, zeroBudget_amended cfgSmall "" [msgBig] none 0 (by decide)⟩

/-- C6: the sliding-window block, in chronological order, is a contiguous
suffix of the history with system-role messages removed, its cost stays
within `slidingWindowSize`, and it is either the whole filtered history or
stops exactly at the first (next-older) message that would exceed the
window. -/
theorem slidingWindow_suffix (cfg : ContextConfig) (H : List Message) :
    slidingWindow cfg H <:+ H.filter nonSystem ∧
    sumTokens (slidingWindow cfg H) ≤ cfg.slidingWindowSize ∧
    (slidingWindow cfg H = H.filter nonSystem ∨
      ∃ pre m, H.filter nonSystem = pre ++ m :: slidingWindow cfg H ∧
        cfg.slidingWindowSize < sumTokens (slidingWindow cfg H) + msgTokens m) := by
  have hW := slidingWindow_eq cfg H
  rcases greedyWindow_cases cfg ((H.filter nonSystem).reverse) 0 with hG | ⟨m, rest, hdec, hgt⟩
  · have hWF : slidingWindow cfg H = H.filter nonSystem := by
      rw [hW, hG, List.reverse_reverse]
    refine ⟨?_, slidingWindow_sum_le cfg H, Or.inl hWF⟩
    rw [hWF]
  · have hF : H.filter nonSystem = rest.reverse ++ m :: slidingWindow cfg H := by
      have hrev := congrArg List.reverse hdec
      rw [List.reverse_reverse, List.reverse_append, List.reverse_cons] at hrev
      rw [hrev, hW]
      simp
    refine ⟨⟨rest.reverse ++ [m], ?_⟩, slidingWindow_sum_le cfg H,
      Or.inr ⟨rest.reverse, m, hF, ?_⟩⟩
    · rw [hF]
      simp
    · have hsum : sumTokens (slidingWindow cfg H) =
          sumTokens (greedyWindow cfg 0 ((H.filter nonSystem).reverse)) := by
        rw [hW, sumTokens_reverse]
      omega

/-- C8: for every input, the first element of the list returned by
`prepareContext` is the synthetic system message built from the system
prompt; neither the file-context message nor backfill displaces it. -/
theorem systemMessage_first (cfg : ContextConfig) (s : String) (H : List Message)
    (f : Option (List FileContent)) (now : Nat) :
    (prepareContext cfg s H f now).head? = some (mkSystemMessage s now) := by
  rw [prepareContext_structure]
  rfl

/-- C9 counterexample: two calls with identical arguments but different
`Date.now()` readings return lists that differ (in the system message's
timestamp), so `prepareContext` is not a pure function of its arguments
alone. -/
theorem purity_counterexample :
    prepareContext DEFAULT_CONTEXT_CONFIG "s" [] none 0 ≠
      prepareContext DEFAULT_CONTEXT_CONFIG "s" [] none 1 := by
  decide

/-- Erase the fields that `prepareContext` stamps from the wall clock. -/
def scrubSynthetic (m : Message) : Message :=
  { m with id := "", timestamp := 0 }

/-- C9 (amended): `prepareContext` is deterministic given its arguments and
the clock reading; two calls with identical arguments differ at most in the
clock-derived `id` and `timestamp` fields of the synthetic system and
file-context messages — after erasing those fields the outputs are
identical. -/
theorem purity_amended (cfg : ContextConfig) (s : String) (H : List Message)
    (f : Option (List FileContent)) (now₁ now₂ : Nat) :
    (prepareContext cfg s H f now₁).map scrubSynthetic =
      (prepareContext cfg s H f now₂).map scrubSynthetic := by
  have hsys : scrubSynthetic (mkSystemMessage s now₁) =
      scrubSynthetic (mkSystemMessage s now₂) := rfl
  have hfile : (fileContextList f now₁).map scrubSynthetic =
      (fileContextList f now₂).map scrubSynthetic := by
    cases f with
    | none => rfl
    | some fcs =>
      by_cases hlen : fcs.length > 0
      · simp only [fileContextList, if_pos hlen, List.map_cons, List.map_nil]
        rfl
      · simp [fileContextList, hlen]
  rw [prepareContext_structure, prepareContext_structure]
  simp only [List.map_cons, List.map_append, hsys, hfile]

/-! ## The model registry and the Client Router

From `models/config.ts` (registry) and `ai-clients/manager.ts`
(`AIClientManager`).  `process.env` reads become an explicit
`env : String → Option String`. -/

/-- Provider identifiers, from `types/index.ts` (`ModelProvider`). -/
inductive ModelProvider where
  | anthropic
  | openai
  | grok
  | mistral
  | moonshot
deriving DecidableEq, Repr

/-- The string form of a provider (as interpolated into error messages). -/
def providerName : ModelProvider → String
  | ModelProvider.anthropic => "anthropic"
  | ModelProvider.openai => "openai"
  | ModelProvider.grok => "grok"
  | ModelProvider.mistral => "mistral"
  | ModelProvider.moonshot => "moonshot"

/-- Speed classification, from `types/index.ts` (`ModelSpeed`). -/
inductive ModelSpeed where
  | fast
  | medium
  | slow
deriving DecidableEq, Repr

/-- Model descriptor, from `types/index.ts` (`ModelConfig`). -/
structure ModelConfig where
  id : String
  name : String
  provider : ModelProvider
  deployment : String
  description : String
  contextWindow : Nat
  supportsStreaming : Bool
  speed : ModelSpeed
  capabilities : List String
deriving DecidableEq, Repr

/-- JavaScript `process.env.KEY || 'fallback'` (empty string is falsy). -/
def envOr (env : String → Option String) (key fallback : String) : String :=
  match env key with
  | some v => if v = "" then fallback else v
  | none => fallback

def claudeOpusModel (env : String → Option String) : ModelConfig :=
  { id := "claude-opus-4.5", name := "Claude Opus 4.5", provider := ModelProvider.anthropic,
    deployment := envOr env "ANTHROPIC_OPUS_DEPLOYMENT" "claude-opus-4.5",
    description := "Most capable, ideal for complex reasoning", contextWindow := 200000,
    supportsStreaming := true, speed := ModelSpeed.slow,
    capabilities := ["reasoning", "code", "analysis", "long-context", "architecture"] }

def claudeSonnetModel (env : String → Option String) : ModelConfig :=
  { id := "claude-sonnet-4.5", name := "Claude Sonnet 4.5", provider := ModelProvider.anthropic,
    deployment := envOr env "ANTHROPIC_SONNET_DEPLOYMENT" "claude-sonnet-4.5",
    description := "Balanced performance and capability", contextWindow := 128000,
    supportsStreaming := true, speed := ModelSpeed.medium,
    capabilities := ["reasoning", "code", "analysis", "refactoring"] }

def claudeHaikuModel (env : String → Option String) : ModelConfig :=
  { id := "claude-haiku-4.5", name := "Claude Haiku 4.5", provider := ModelProvider.anthropic,
    deployment := envOr env "ANTHROPIC_HAIKU_DEPLOYMENT" "claude-haiku-4.5",
    description := "Fastest, most cost-effective", contextWindow := 128000,
    supportsStreaming := true, speed := ModelSpeed.fast,
    capabilities := ["code", "quick-tasks", "prototyping"] }

def gpt52Model (env : String → Option String) : ModelConfig :=
  { id := "gpt-5.2-chat", name := "GPT-5.2 Chat", provider := ModelProvider.openai,
    deployment := envOr env "OPENAI_GPT52_DEPLOYMENT" "gpt-5.2-chat",
    description := "Latest OpenAI model, most advanced", contextWindow := 128000,
    supportsStreaming := true, speed := ModelSpeed.medium,
    capabilities := ["reasoning", "code", "creative", "analysis", "innovation"] }

def gpt51Model (env : String → Option String) : ModelConfig :=
  { id := "gpt-5.1-chat", name := "GPT-5.1 Chat", provider := ModelProvider.openai,
    deployment := envOr env "OPENAI_GPT51_DEPLOYMENT" "gpt-5.1-chat",
    description := "Advanced reasoning and coding", contextWindow := 128000,
    supportsStreaming := true, speed := ModelSpeed.medium,
    capabilities := ["reasoning", "code", "analysis", "testing"] }

def gpt4oMiniModel (env : String → Option String) : ModelConfig :=
  { id := "gpt-4o-mini", name := "GPT-4o Mini", provider := ModelProvider.openai,
    deployment := envOr env "OPENAI_GPT4O_MINI_DEPLOYMENT" "gpt-4o-mini",
    description := "Fast and lightweight", contextWindow := 128000,
    supportsStreaming := true, speed := ModelSpeed.fast,
    capabilities := ["code", "quick-tasks", "snippets"] }

def kimiK2Model (env : String → Option String) : ModelConfig :=
  { id := "Kimi-K2-Thinking", name := "Kimi K2 Thinking", provider := ModelProvider.moonshot,
    deployment := envOr env "MOONSHOT_DEPLOYMENT" "Kimi-K2-Thinking",
    description := "Deep reasoning specialist", contextWindow := 128000,
    supportsStreaming := true, speed := ModelSpeed.slow,
    capabilities := ["reasoning", "thinking", "analysis", "code", "algorithms"] }

def mistralLargeModel (env : String → Option String) : ModelConfig :=
  { id := "Mistral-Large-3", name := "Mistral Large 3", provider := ModelProvider.mistral,
    deployment := envOr env "MISTRAL_DEPLOYMENT" "Mistral-Large-3",
    description := "Powerful multilingual model", contextWindow := 128000,
    supportsStreaming := true, speed := ModelSpeed.medium,
    capabilities := ["code", "multilingual", "reasoning", "european"] }

def grok4FastModel (env : String → Option String) : ModelConfig :=
  { id := "grok-4-fast-non-reasoning", name := "Grok 4 Fast", provider := ModelProvider.grok,
    deployment := envOr env "GROK_DEPLOYMENT" "grok-4-fast-non-reasoning",
    description := "xAI fast model for quick tasks", contextWindow := 128000,
    supportsStreaming := true, speed := ModelSpeed.fast,
    capabilities := ["code", "quick-tasks", "practical", "efficient"] }

/-- The model registry `MODELS` of `models/config.ts`: key lookup in the
record of 9 models. -/
def MODELS (env : String → Option String) (modelId : String) : Option ModelConfig :=
  if modelId = "claude-opus-4.5" then some (claudeOpusModel env)
  else if modelId = "claude-sonnet-4.5" then some (claudeSonnetModel env)
  else if modelId = "claude-haiku-4.5" then some (claudeHaikuModel env)
  else if modelId = "gpt-5.2-chat" then some (gpt52Model env)
  else if modelId = "gpt-5.1-chat" then some (gpt51Model env)
  else if modelId = "gpt-4o-mini" then some (gpt4oMiniModel env)
  else if modelId = "Kimi-K2-Thinking" then some (kimiK2Model env)
  else if modelId = "Mistral-Large-3" then some (mistralLargeModel env)
  else if modelId = "grok-4-fast-non-reasoning" then some (grok4FastModel env)
  else none

/-- Which concrete client class serves a provider, from
`AIClientManager.initializeClients`. -/
inductive ClientKind where
  | anthropicSdk
  | azureOpenAI
  | openAICompat
deriving DecidableEq, Repr

/-- A constructed provider client (`BaseAIClient`): its `provider` tag and
concrete class. -/
structure AIClient where
  provider : ModelProvider
  kind : ClientKind
deriving DecidableEq, Repr

/-- The client each provider gets in `initializeClients`:
`AnthropicClient`, `createOpenAIClient` (AzureOpenAI), and the
OpenAI-compatible clients for grok, mistral and moonshot.  Each client
constructor stores its own provider tag (`super(provider)`). -/
def defaultClientFor : ModelProvider → AIClient
  | ModelProvider.anthropic => ⟨ModelProvider.anthropic, ClientKind.anthropicSdk⟩
  | ModelProvider.openai => ⟨ModelProvider.openai, ClientKind.azureOpenAI⟩
  | ModelProvider.grok => ⟨ModelProvider.grok, ClientKind.openAICompat⟩
  | ModelProvider.mistral => ⟨ModelProvider.mistral, ClientKind.openAICompat⟩
  | ModelProvider.moonshot => ⟨ModelProvider.moonshot, ClientKind.openAICompat⟩

/-- The client map after `initializeClients`: every provider has exactly
its default client. -/
def initialClients (p : ModelProvider) : Option AIClient :=
  some (defaultClientFor p)

/-- Router failures of `AIClientManager`. -/
inductive RouteError where
  | unknownModel (modelId : String)
  | noClientForProvider (provider : ModelProvider)
deriving DecidableEq, Repr

/-- The error strings thrown by `AIClientManager`. -/
def routeErrorMessage : RouteError → String
  | RouteError.unknownModel modelId => "Unknown model: " ++ modelId
  | RouteError.noClientForProvider p => "No client configured for provider: " ++ providerName p

/-- `AIClientManager.streamCompletion` up to the delegation point: validate
the model id against the registry, resolve its provider's client
(`getClient`), and hand the stream over to that client.  The returned
client is the adapter whose `streamCompletion` is then `yield*`-delegated
to. -/
def routeStreamCompletion (env : String → Option String)
    (clients : ModelProvider → Option AIClient) (modelId : String) :
    Except RouteError AIClient :=
  match MODELS env modelId with
  | none => Except.error (RouteError.unknownModel modelId)
  | some model =>
    match clients model.provider with
    | none => Except.error (RouteError.noClientForProvider model.provider)
    | some client => Except.ok client

lemma defaultClientFor_provider (p : ModelProvider) : (defaultClientFor p).provider = p := by
  cases p <;> rfl

/-- C7: an unregistered model id fails with the unknown-model error no
matter what clients exist (so before any adapter is consulted); a
registered model id resolves through its `ModelConfig.provider`: if that
provider has no client the router fails with the no-client error,
otherwise it delegates to exactly that provider's client — and with the
startup client map the delegated client's provider tag equals the model's
provider. -/
theorem clientRouter_routing (env : String → Option String)
    (clients : ModelProvider → Option AIClient) (modelId : String) :
    (MODELS env modelId = none →
      routeStreamCompletion env clients modelId =
        Except.error (RouteError.unknownModel modelId)) ∧
    (∀ m, MODELS env modelId = some m →
      (clients m.provider = none →
        routeStreamCompletion env clients modelId =
          Except.error (RouteError.noClientForProvider m.provider)) ∧
      (∀ c, clients m.provider = some c →
        routeStreamCompletion env clients modelId = Except.ok c) ∧
      (∃ c, routeStreamCompletion env initialClients modelId = Except.ok c ∧
        c.provider = m.provider)) := by
  constructor
  · intro hM
    simp [routeStreamCompletion, hM]
  · intro m hM
    refine ⟨?_, ?_, ?_⟩
    · intro hc
      simp [routeStreamCompletion, hM, hc]
    · intro c hc
      simp [routeStreamCompletion, hM, hc]
    · exact ⟨defaultClientFor m.provider,
        by simp [routeStreamCompletion, hM, initialClients],
        defaultClientFor_provider m.provider⟩

/-- C7 witness: with no environment set, the registered id
`claude-sonnet-4.5` routes to the anthropic client, and an unregistered id
fails with the unknown-model error. -/
theorem clientRouter_routing_witness :
    routeStreamCompletion (fun _ => none) initialClients "claude-sonnet-4.5" =
      Except.ok (defaultClientFor ModelProvider.anthropic) ∧
    routeStreamCompletion (fun _ => none) initialClients "no-such-model" =
      Except.error (RouteError.unknownModel "no-such-model") := by
  constructor
  · exact ((clientRouter_routing (fun _ => none) initialClients "claude-sonnet-4.5").2
      (claudeSonnetModel (fun _ => none)) (by decide)).2.1
      (defaultClientFor ModelProvider.anthropic) rfl
  · exact (clientRouter_routing (fun _ => none) initialClients "no-such-model").1 (by decide)

/-! ## The Anthropic stream adapter

From `ai-clients/anthropic.ts` (`AnthropicClient.streamCompletion`) and
`ai-clients/base.ts` (`BaseAIClient.handleError`). -/

/-- `BaseAIClient.handleError` for a thrown `Error`:
`` `${this.provider} API error: ${error.message}` ``. -/
def handleError (p : ModelProvider) (msg : String) : String :=
  providerName p ++ " API error: " ++ msg

/-- The wire request `AnthropicClient.streamCompletion` would open
(`client.messages.create`). -/
structure AnthropicRequest where
  model : String
  maxTokens : Nat
  system : Option String
  messages : List (MessageRole × String)
deriving DecidableEq, Repr

/-- The `m.role === 'system'` predicate of the `find` call. -/
def isSystemRole (m : Message) : Bool :=
  m.role = MessageRole.system

/-- The phase of `AnthropicClient.streamCompletion` that runs before the
provider request is opened: model validation, system-message separation and
the at-least-one-message check.  Any error thrown here is re-thrown by the
surrounding catch as `handleError`, and no chunk is ever yielded.  On
success it returns the request that would be opened
(`systemMessage?.content || undefined` makes an empty system content
`undefined`, mirrored by the emptiness test). -/
def anthropicPrepareRequest (env : String → Option String) (messages : List Message)
    (modelId : String) : Except String AnthropicRequest :=
  match MODELS env modelId with
  | some model =>
    if model.provider = ModelProvider.anthropic then
      let systemMessage := messages.find? isSystemRole
      let conversationMessages := messages.filter nonSystem
      if conversationMessages.length = 0 then
        Except.error (handleError ModelProvider.anthropic
          "At least one user or assistant message is required")
      else
        Except.ok
          { model := model.deployment
            maxTokens := 4096
            system :=
              match systemMessage with
              | some m => if m.content = "" then none else some m.content
              | none => none
            messages := conversationMessages.map (fun m => (m.role, m.content)) }
    else
      Except.error (handleError ModelProvider.anthropic ("Invalid Anthropic model: " ++ modelId))
  | none =>
    Except.error (handleError ModelProvider.anthropic ("Invalid Anthropic model: " ++ modelId))

/-- C10: for a registered Anthropic model, a message list with only
system-role messages (in particular the empty list) makes
`AnthropicClient.streamCompletion` fail with the provider-prefixed wrapping
of the at-least-one-message error before any provider request is opened,
so no chunk is yielded. -/
theorem anthropicRequiresMessage (env : String → Option String) (messages : List Message)
    (modelId : String) (m : ModelConfig)
    (hm : MODELS env modelId = some m) (hp : m.provider = ModelProvider.anthropic)
    (hall : ∀ x ∈ messages, x.role = MessageRole.system) :
    anthropicPrepareRequest env messages modelId =
      Except.error "anthropic API error: At least one user or assistant message is required" := by
  have hfilter : messages.filter nonSystem = [] := by
    rw [List.filter_eq_nil_iff]
    intro a ha
    simp [nonSystem, hall a ha]
  simp [anthropicPrepareRequest, hm, hp, hfilter, handleError, providerName]

def msgSysOnly : Message :=
  { id := "s1", role := MessageRole.system, content := "sys", timestamp := 0 }

/-- C10 witness: a single system-role message against the registered
`claude-opus-4.5` model produces exactly the wrapped error. -/
theorem anthropicRequiresMessage_witness :
    anthropicPrepareRequest (fun _ => none) [msgSysOnly] "claude-opus-4.5" =
      Except.error "anthropic API error: At least one user or assistant message is required" :=
  anthropicRequiresMessage (fun _ => none) [msgSysOnly] "claude-opus-4.5"
    (claudeOpusModel (fun _ => none)) (by decide) rfl (by decide)

/-! ## The Stream Consumer / Render Decoupler

From `components/App.tsx` (`handleSendMessage`, the streaming section).
The two concurrent loops — the 33 ms `setInterval` flush callback and the
`for await` chunk-ingest loop — run cooperatively on the single JavaScript
thread, so a turn is an arbitrary interleaving of atomic events over the
shared turn state.  `tick` is one interval callback; `chunk c` is one
ingest-loop iteration; `finish` is the code after the loop
(`isComplete = true` plus the final `setState` flush, with no suspension
point in between); `streamError m` is the `catch` block. -/

/-- Streaming response chunk, from `types/index.ts` (`StreamChunk`). -/
structure StreamChunk where
  delta : String
  done : Bool
  tokenCount : Option Nat := none
  finishReason : Option String := none
deriving DecidableEq, Repr

/-- One atomic scheduling step of the turn. -/
inductive TurnEvent where
  | tick
  | chunk (c : StreamChunk)
  | finish
  | streamError (msg : String)
deriving DecidableEq, Repr

/-- The in-flight turn state: the closure variables
(`accumulatedContent`, `finalTokenCount`, `isComplete`), whether the
interval is still scheduled, the assistant message content/tokenCount as
last written into React state (the flushed values), and the app error
state. -/
structure TurnState where
  accumulatedContent : String
  finalTokenCount : Nat
  isComplete : Bool
  timerActive : Bool
  flushedContent : String
  flushedTokenCount : Nat
  errorBanner : Option String
  isLoading : Bool
deriving DecidableEq, Repr

/-- The state right after the placeholder assistant message is appended
and the interval is started. -/
def initTurnState : TurnState :=
  { accumulatedContent := "", finalTokenCount := 0, isComplete := false, timerActive := true,
    flushedContent := "", flushedTokenCount := 0, errorBanner := none, isLoading := true }

/-- One event against the turn state:
tick = the interval callback (copy the accumulator into the assistant
message, then self-clear if `isComplete`); chunk = one loop iteration
(`if (!chunk.done)` append the delta, overwrite the token count); finish =
`isComplete = true` plus the final `setState`; streamError = the catch
block (set the error and stop loading — it never clears the interval and
never sets `isComplete`). -/
def stepTurn (s : TurnState) : TurnEvent → TurnState
  | TurnEvent.tick =>
    if s.timerActive then
      if s.isComplete then
        { s with flushedContent := s.accumulatedContent,
                 flushedTokenCount := s.finalTokenCount, timerActive := false }
      else
        { s with flushedContent := s.accumulatedContent,
                 flushedTokenCount := s.finalTokenCount }
    else
      s
  | TurnEvent.chunk c =>
    if c.done then
      s
    else
      { s with accumulatedContent := s.accumulatedContent ++ c.delta,
               finalTokenCount := c.tokenCount.getD 0 }
  | TurnEvent.finish =>
    { s with isComplete := true, isLoading := false,
             flushedContent := s.accumulatedContent,
             flushedTokenCount := s.finalTokenCount }
  | TurnEvent.streamError msg =>
    { s with isLoading := false, errorBanner := some msg }

/-- Run a whole turn from the initial state. -/
def runTurn (events : List TurnEvent) : TurnState :=
  events.foldl stepTurn initTurnState

def isTick : TurnEvent → Bool
  | TurnEvent.tick => true
  | _ => false

/-- The concatenation of the deltas of the non-terminal chunks. -/
def concatDeltas : List StreamChunk → String
  | [] => ""
  | c :: rest => if c.done then concatDeltas rest else c.delta ++ concatDeltas rest

lemma stepTurn_tick_acc (s : TurnState) :
    (stepTurn s TurnEvent.tick).accumulatedContent = s.accumulatedContent := by
  simp only [stepTurn]
  split
  · split <;> rfl
  · rfl

/-- Once the accumulator is fully flushed, any number of further ticks
leaves both the accumulator and the flushed content where they are. -/
lemma ticksOnly_foldl :
    ∀ (events : List TurnEvent) (s : TurnState),
      events.filter (fun e => !isTick e) = [] →
      s.flushedContent = s.accumulatedContent →
      (events.foldl stepTurn s).accumulatedContent = s.accumulatedContent ∧
        (events.foldl stepTurn s).flushedContent = s.accumulatedContent := by
  intro events
  induction events with
  | nil => intro s _ hfl; exact ⟨rfl, hfl⟩
  | cons e rest ih =>
    intro s hfilter hfl
    cases e with
    | tick =>
      rw [List.filter_cons] at hfilter
      simp only [isTick] at hfilter
      have hstep : (stepTurn s TurnEvent.tick).accumulatedContent = s.accumulatedContent :=
        stepTurn_tick_acc s
      have hstepfl : (stepTurn s TurnEvent.tick).flushedContent =
          (stepTurn s TurnEvent.tick).accumulatedContent := by
        simp only [stepTurn]
        split
        · split <;> simp
        · exact hfl
      have := ih (stepTurn s TurnEvent.tick) (by simpa using hfilter) hstepfl
      rw [List.foldl_cons]
      exact ⟨by rw [this.1, hstep], by rw [this.2, hstep]⟩
    | chunk c => simp [List.filter_cons, isTick] at hfilter
    | finish => simp [List.filter_cons, isTick] at hfilter
    | streamError m => simp [List.filter_cons, isTick] at hfilter

/-- Core invariant of the two-loop protocol: if the non-tick events of a
schedule are exactly the chunk ingests followed by the completion step,
then — whatever the tick phase — the run ends with both the accumulator
and the flushed assistant content equal to the concatenated deltas. -/
lemma runTurn_aux :
    ∀ (events : List TurnEvent) (cs : List StreamChunk) (s : TurnState),
      events.filter (fun e => !isTick e) = cs.map TurnEvent.chunk ++ [TurnEvent.finish] →
      (events.foldl stepTurn s).accumulatedContent = s.accumulatedContent ++ concatDeltas cs ∧
        (events.foldl stepTurn s).flushedContent = s.accumulatedContent ++ concatDeltas cs := by
  intro events
  induction events with
  | nil =>
    intro cs s hfilter
    exfalso
    cases cs <;> simp at hfilter
  | cons e rest ih =>
    intro cs s hfilter
    cases e with
    | tick =>
      rw [List.filter_cons] at hfilter
      simp only [isTick] at hfilter
      have := ih cs (stepTurn s TurnEvent.tick) (by simpa using hfilter)
      rw [List.foldl_cons]
      rw [stepTurn_tick_acc] at this
      exact this
    | chunk c =>
      rw [List.filter_cons] at hfilter
      simp only [isTick, Bool.not_false, if_pos] at hfilter
      cases cs with
      | nil => simp at hfilter
      | cons c' cs' =>
        rw [List.map_cons, List.cons_append] at hfilter
        have hc : c = c' := by
          have := List.head_eq_of_cons_eq hfilter
          injection this
        have htail : rest.filter (fun e => !isTick e) =
            cs'.map TurnEvent.chunk ++ [TurnEvent.finish] :=
          List.tail_eq_of_cons_eq hfilter
        subst hc
        rw [List.foldl_cons]
        by_cases hdone : c.done
        · have hstep : stepTurn s (TurnEvent.chunk c) = s := by
            simp [stepTurn, hdone]
          rw [hstep]
          have := ih cs' s htail
          simpa [concatDeltas, hdone] using this
        · have hstep : (stepTurn s (TurnEvent.chunk c)).accumulatedContent =
              s.accumulatedContent ++ c.delta := by
            simp [stepTurn, hdone]
          have := ih cs' (stepTurn s (TurnEvent.chunk c)) htail
          rw [hstep] at this
          simpa [concatDeltas, hdone, String.append_assoc] using this
    | finish =>
      rw [List.filter_cons] at hfilter
      simp only [isTick, Bool.not_false, if_pos] at hfilter
      cases cs with
      | cons c' cs' =>
        exfalso
        rw [List.map_cons, List.cons_append] at hfilter
        have := List.head_eq_of_cons_eq hfilter
        exact TurnEvent.noConfusion this
      | nil =>
        rw [List.map_nil, List.nil_append] at hfilter
        have htail : rest.filter (fun e => !isTick e) = [] :=
          List.tail_eq_of_cons_eq hfilter
        rw [List.foldl_cons]
        have hstepacc : (stepTurn s TurnEvent.finish).accumulatedContent =
            s.accumulatedContent := rfl
        have hstepfl : (stepTurn s TurnEvent.finish).flushedContent =
            (stepTurn s TurnEvent.finish).accumulatedContent := rfl
        have := ticksOnly_foldl rest (stepTurn s TurnEvent.finish) htail hstepfl
        rw [hstepacc] at this
        simpa [concatDeltas] using this
    | streamError m =>
      exfalso
      rw [List.filter_cons] at hfilter
      simp only [isTick, Bool.not_false, if_pos] at hfilter
      cases cs with
      | nil =>
        have := List.head_eq_of_cons_eq hfilter
        exact TurnEvent.noConfusion this
      | cons c' cs' =>
        rw [List.map_cons, List.cons_append] at hfilter
        have := List.head_eq_of_cons_eq hfilter
        exact TurnEvent.noConfusion this

/-- C5: for every finite chunk sequence and every interleaving of flush
ticks with the ingest loop and the completion step, the final flushed
assistant content — and the accumulator — equal the concatenation of all
non-terminal deltas exactly. -/
theorem streamFlush_final (chunks : List StreamChunk) (events : List TurnEvent)
    (h : events.filter (fun e => !isTick e) =
      chunks.map TurnEvent.chunk ++ [TurnEvent.finish]) :
    (runTurn events).flushedContent = concatDeltas chunks ∧
      (runTurn events).accumulatedContent = concatDeltas chunks := by
  have := runTurn_aux events chunks initTurnState h
  rw [runTurn]
  refine ⟨?_, ?_⟩
  · rw [this.2]
    simp [initTurnState]
  · rw [this.1]
    simp [initTurnState]

/-- The spec's example schedule: `"Hello, world"` in three chunks and a
terminal chunk, with ticks landing at arbitrary places. -/
def eventsHello : List TurnEvent :=
  [TurnEvent.chunk ⟨"Hel", false, some 1, none⟩, TurnEvent.tick,
   TurnEvent.chunk ⟨"lo, ", false, some 2, none⟩,
   TurnEvent.chunk ⟨"world", false, some 3, none⟩, TurnEvent.tick,
   TurnEvent.chunk ⟨"", true, some 3, some "stop"⟩, TurnEvent.finish, TurnEvent.tick]

def chunksHello : List StreamChunk :=
  [⟨"Hel", false, some 1, none⟩, ⟨"lo, ", false, some 2, none⟩,
   ⟨"world", false, some 3, none⟩, ⟨"", true, some 3, some "stop"⟩]

/-- C5 witness: on the concrete `["Hel","lo, ","world"]` + terminal
schedule the final flushed content is exactly `"Hello, world"`. -/
theorem streamFlush_final_witness :
    (runTurn eventsHello).flushedContent = "Hello, world" := by
  have h := streamFlush_final chunksHello eventsHello (by decide)
  exact h.1.trans (by decide)

/-- A stream that delivers one delta and then raises mid-stream. -/
def eventsError : List TurnEvent :=
  [TurnEvent.chunk ⟨"ab", false, some 1, none⟩, TurnEvent.tick,
   TurnEvent.streamError "anthropic API error: network failure"]

/-- C3: on a mid-stream error the turn's error state is set and the
partial flushed content is preserved, but the flush timer is NOT stopped:
the catch block never clears the interval and never sets `isComplete`, so
the timer stays active and later ticks keep firing (re-flushing the stale
accumulator).  This contradicts the specified behaviour of halting the
flush timer on error. -/
theorem streamError_timerLeak :
    (runTurn eventsError).errorBanner = some "anthropic API error: network failure" ∧
      (runTurn eventsError).flushedContent = "ab" ∧
      (runTurn eventsError).timerActive = true ∧
      (stepTurn (runTurn eventsError) TurnEvent.tick).timerActive = true := by
  decide

end AzureCode
